import Mathlib

/-!
Verification of the LazyCurl interactive HTTP client (src/src/main.rs).

The program is a single-file terminal application: an event loop owning
mutable session state (URL buffer, selected method index, header map,
param map, body text, response text, options display mode) and a helper
`make_request` that performs one blocking HTTP call and reduces the
outcome to a display string.

Shallow embedding decisions:
* The URL buffer is a `List Char` (Rust `String.push` / `String.pop`
  operate on whole characters, so a char list is an exact model).
* The HTTP transport (reqwest) is an external collaborator; it is
  modelled as an oracle `net : HttpRequest → Option String` returning
  `some text` when `send().and_then(|res| res.text())` succeeds and
  `none` on any transport or decoding failure.
* Network effects are made visible as an explicit trace: `make_request`
  and the loop step return, besides their result, the list of requests
  actually dispatched to the transport.
* The Rust `HashMap` for headers/params is modelled as an association
  list; the program never inserts into either map, so iteration order
  never matters.
-/

/-- One HTTP request as assembled by `make_request` just before
`request.send()`: the method token, target URL, attached header entries,
and the attached payload (`none` when no `.body(...)` call was made). -/
structure HttpRequest where
  method : String
  url : String
  headers : List (String × String)
  body : Option String
deriving DecidableEq, Repr

/-- The transport oracle: `some text` models a response whose body
decodes as `text`; `none` models any failure of `send()` or `.text()`. -/
def Net : Type := HttpRequest → Option String

/-- The fixed method list `["GET", "POST", "PUT", "DELETE", "PATCH"]`
from `main` (src/src/main.rs line 30). -/
def methods : List String := ["GET", "POST", "PUT", "DELETE", "PATCH"]

/-- Whether `method` hits one of the five recognized arms of the `match`
in `make_request` (lines 168-175); `_ => return "Invalid Method"`
otherwise. -/
def recognizedMethod (method : String) : Bool :=
  method = "GET" || method = "POST" || method = "PUT" ||
  method = "DELETE" || method = "PATCH"

/-- The request `make_request` assembles for a recognized method: the
builder for `method` and `url`, every header entry attached verbatim
(lines 177-179), and `.body(body)` attached exactly when
`method != "GET"` (lines 181-183). -/
def built_request (method url : String) (headers : List (String × String))
    (body : String) : HttpRequest :=
  { method := method
    url := url
    headers := headers
    body := if method ≠ "GET" then some body else none }

/-- `make_request` (src/src/main.rs lines 161-189), with the dispatched
requests returned as an explicit trace.  An unrecognized method returns
the literal `"Invalid Method"` before any request is assembled; a
recognized one dispatches exactly one request and maps a transport
failure to the literal `"Failed to make request"`. -/
def make_request (net : Net) (method url : String)
    (headers : List (String × String)) (body : String) :
    String × List HttpRequest :=
  if recognizedMethod method then
    let request := built_request method url headers body
    (((net request).getD "Failed to make request"), [request])
  else
    ("Invalid Method", [])

/-- The key events the loop distinguishes (the `match key.code` arms at
src/src/main.rs lines 121-148); `other` is the `_ => {}` arm. -/
inductive KeyCode where
  | esc : KeyCode
  | up : KeyCode
  | down : KeyCode
  | enter : KeyCode
  | backspace : KeyCode
  | char : Char → KeyCode
  | other : KeyCode
deriving DecidableEq, Repr

/-- The mutable state owned by `main`'s loop: `input` is the URL buffer,
`selected_method` indexes into `methods`, `headers`/`params`/`body` are
the (never edited) request data, `response_text` the response pane
content, `options_mode` the display selector (0 Headers, 1 Body,
2 Params). -/
structure SessionState where
  input : List Char
  selected_method : Nat
  headers : List (String × String)
  params : List (String × String)
  body : String
  response_text : String
  options_mode : Nat
deriving DecidableEq, Repr

/-- The state at session start (src/src/main.rs lines 25-33). -/
def initState : SessionState :=
  { input := []
    selected_method := 0
    headers := []
    params := []
    body := ""
    response_text := "Response will appear here..."
    options_mode := 0 }

/-- One pass of the event-dispatch `match` (src/src/main.rs lines
121-148) on a single key event, returning the updated state and the
requests dispatched during the event.  The `Char('H')`, `Char('B')` and
`Char('P')` arms precede the generic `Char(c)` arm, exactly as in the
source `match`; `esc` only breaks the loop, handled in `run`. -/
def step (net : Net) (s : SessionState) (k : KeyCode) :
    SessionState × List HttpRequest :=
  match k with
  | .esc => (s, [])
  | .up =>
      if s.selected_method > 0 then
        ({ s with selected_method := s.selected_method - 1 }, [])
      else (s, [])
  | .down =>
      if s.selected_method < methods.length - 1 then
        ({ s with selected_method := s.selected_method + 1 }, [])
      else (s, [])
  | .char c =>
      if c = 'H' then ({ s with options_mode := 0 }, [])
      else if c = 'B' then ({ s with options_mode := 1 }, [])
      else if c = 'P' then ({ s with options_mode := 2 }, [])
      else ({ s with input := s.input ++ [c] }, [])
  | .enter =>
      if s.input ≠ [] then
        let method := methods.getD s.selected_method ""
        let r := make_request net method (String.mk s.input) s.headers s.body
        ({ s with response_text := r.1 }, r.2)
      else (s, [])
  | .backspace => ({ s with input := s.input.dropLast }, [])
  | .other => (s, [])

/-- The event loop run on a sequence of key events, accumulating the
trace of dispatched requests.  `Esc` breaks the loop (line 122), so keys
after it are never processed. -/
def run (net : Net) (s : SessionState) : List KeyCode →
    SessionState × List HttpRequest
  | [] => (s, [])
  | k :: ks =>
      if k = KeyCode.esc then (s, [])
      else
        let r := step net s k
        let rest := run net r.1 ks
        (rest.1, r.2 ++ rest.2)

/-- A transport on which every dispatch fails. -/
def netFail : Net := fun _ => none

/-- A transport answering every dispatch with the fixed body `t`. -/
def netConst (t : String) : Net := fun _ => some t

/-! ## Theorems -/

/-- C2: for every method string outside the five recognized tokens, and
any url, headers and body, `make_request` returns exactly
`"Invalid Method"`, with no request assembled or dispatched (empty
trace, so no headers or body are ever attached and the transport is
never consulted). -/
theorem c2_invalid_method (net : Net) (method url : String)
    (headers : List (String × String)) (body : String)
    (h : recognizedMethod method = false) :
    make_request net method url headers body = ("Invalid Method", []) := by
  simp [make_request, h]

theorem c2_invalid_method_witness :
    recognizedMethod "INVALID" = false ∧
    make_request netFail "INVALID" "http://x" [("a", "b")] "{}" =
      ("Invalid Method", []) :=
  ⟨by decide,
   c2_invalid_method netFail "INVALID" "http://x" [("a", "b")] "{}" (by decide)⟩

/-- C3: for every recognized method, url, headers and body, if the
transport fails on the dispatched request the result is exactly
`"Failed to make request"`; if the transport succeeds with decoded body
`t`, the result is exactly `t`. -/
theorem c3_transport_outcome (net : Net) (method url : String)
    (headers : List (String × String)) (body : String)
    (h : recognizedMethod method = true) :
    (net (built_request method url headers body) = none →
      (make_request net method url headers body).1 = "Failed to make request") ∧
    (∀ t, net (built_request method url headers body) = some t →
      (make_request net method url headers body).1 = t) := by
  constructor
  · intro hn
    simp [make_request, h, hn]
  · intro t ht
    simp [make_request, h, ht]

theorem c3_transport_outcome_witness :
    (make_request netFail "GET" "http://x" [] "").1 = "Failed to make request" ∧
    (make_request (netConst "ok") "GET" "http://x" [] "").1 = "ok" :=
  ⟨(c3_transport_outcome netFail "GET" "http://x" [] "" (by decide)).1 rfl,
   (c3_transport_outcome (netConst "ok") "GET" "http://x" [] "" (by decide)).2
     "ok" rfl⟩

/-- C5: for every recognized method, url, headers and body, exactly one
request is dispatched; its payload is absent when the method is `GET`
and is the body text verbatim (even when empty) for every other
method. -/
theorem c5_body_attachment (net : Net) (method url : String)
    (headers : List (String × String)) (body : String)
    (h : recognizedMethod method = true) :
    (make_request net method url headers body).2 =
      [built_request method url headers body] ∧
    (method = "GET" → (built_request method url headers body).body = none) ∧
    (method ≠ "GET" → (built_request method url headers body).body = some body) := by
  refine ⟨by simp [make_request, h], ?_, ?_⟩
  · intro hg
    simp [built_request, hg]
  · intro hg
    simp [built_request, hg]

theorem c5_body_attachment_witness :
    (make_request netFail "GET" "http://x" [] "x").2 =
      [built_request "GET" "http://x" [] "x"] ∧
    (built_request "GET" "http://x" [] "x").body = none ∧
    (built_request "POST" "http://x" [] "").body = some "" :=
  ⟨(c5_body_attachment netFail "GET" "http://x" [] "x" (by decide)).1,
   (c5_body_attachment netFail "GET" "http://x" [] "x" (by decide)).2.1 rfl,
   (c5_body_attachment netFail "POST" "http://x" [] "" (by decide)).2.2
     (by decide)⟩

/-- C8: in any state, Backspace drops exactly the last character of the
URL buffer (and dispatches nothing); on an empty buffer it is a complete
no-op, leaving the whole state unchanged. -/
theorem c8_backspace (net : Net) (s : SessionState) :
    step net s KeyCode.backspace = ({ s with input := s.input.dropLast }, []) ∧
    (s.input = [] → step net s KeyCode.backspace = (s, [])) := by
  refine ⟨rfl, ?_⟩
  intro h
  cases s
  simp_all [step]

theorem c8_backspace_witness :
    step netFail initState KeyCode.backspace = (initState, []) :=
  (c8_backspace netFail initState).2 rfl

/-- C10: the mode keys are case-sensitive: lowercase h, b, p fall
through to the generic character arm and are appended to the URL buffer
with the display mode untouched, while uppercase H, B, P only set the
display mode and are never appended. -/
theorem c10_case_sensitive_mode_keys (net : Net) (s : SessionState) :
    step net s (KeyCode.char 'h') = ({ s with input := s.input ++ ['h'] }, []) ∧
    step net s (KeyCode.char 'b') = ({ s with input := s.input ++ ['b'] }, []) ∧
    step net s (KeyCode.char 'p') = ({ s with input := s.input ++ ['p'] }, []) ∧
    step net s (KeyCode.char 'H') = ({ s with options_mode := 0 }, []) ∧
    step net s (KeyCode.char 'B') = ({ s with options_mode := 1 }, []) ∧
    step net s (KeyCode.char 'P') = ({ s with options_mode := 2 }, []) :=
  ⟨rfl, rfl, rfl, rfl, rfl, rfl⟩

/-- Running a sequence of mode keys (uppercase H, B, P) from any state
changes only the display mode: every other field is untouched and no
request is dispatched. -/
lemma run_mode_keys (net : Net) (s : SessionState) (ks : List KeyCode)
    (h : ∀ k ∈ ks, k = KeyCode.char 'H' ∨ k = KeyCode.char 'B' ∨
      k = KeyCode.char 'P') :
    (run net s ks).1.input = s.input ∧
    (run net s ks).1.selected_method = s.selected_method ∧
    (run net s ks).1.headers = s.headers ∧
    (run net s ks).1.params = s.params ∧
    (run net s ks).1.body = s.body ∧
    (run net s ks).1.response_text = s.response_text ∧
    (run net s ks).2 = [] := by
  induction ks generalizing s with
  | nil => simp [run]
  | cons k ks ih =>
    have hk := h k (List.mem_cons_self k ks)
    have hks : ∀ k' ∈ ks, k' = KeyCode.char 'H' ∨ k' = KeyCode.char 'B' ∨
        k' = KeyCode.char 'P' :=
      fun k' hk' => h k' (List.mem_cons_of_mem _ hk')
    rcases hk with rfl | rfl | rfl <;>
      simpa [run, step] using ih _ hks

/-- C7: in any state, uppercase H, B, P set the options display mode to
Headers (0), Body (1), Params (2) respectively while dispatching nothing
and leaving every other field untouched; consequently any sequence of
such presses leaves the URL buffer, the method selection, the header
set, the param set, the body text and the response text unchanged. -/
theorem c7_mode_keys_frame (net : Net) (s : SessionState) :
    step net s (KeyCode.char 'H') = ({ s with options_mode := 0 }, []) ∧
    step net s (KeyCode.char 'B') = ({ s with options_mode := 1 }, []) ∧
    step net s (KeyCode.char 'P') = ({ s with options_mode := 2 }, []) ∧
    ∀ ks : List KeyCode,
      (∀ k ∈ ks, k = KeyCode.char 'H' ∨ k = KeyCode.char 'B' ∨
        k = KeyCode.char 'P') →
      (run net s ks).1.input = s.input ∧
      (run net s ks).1.selected_method = s.selected_method ∧
      (run net s ks).1.headers = s.headers ∧
      (run net s ks).1.params = s.params ∧
      (run net s ks).1.body = s.body ∧
      (run net s ks).1.response_text = s.response_text ∧
      (run net s ks).2 = [] :=
  ⟨rfl, rfl, rfl, fun ks h => run_mode_keys net s ks h⟩

theorem c7_mode_keys_frame_witness :
    (run netFail initState
      [KeyCode.char 'H', KeyCode.char 'B', KeyCode.char 'P']).1.input =
      initState.input :=
  ((c7_mode_keys_frame netFail initState).2.2.2
    [KeyCode.char 'H', KeyCode.char 'B', KeyCode.char 'P'] (by decide)).1

/-- C4: pressing Enter on an empty URL buffer dispatches nothing and
leaves the whole state unchanged; on a non-empty buffer it invokes the
request executor with the currently selected method token, the buffer
contents as url, and the session's header set and body text, and
replaces the response text wholesale with the returned string. -/
theorem c4_enter (net : Net) (s : SessionState) :
    (s.input = [] → step net s KeyCode.enter = (s, [])) ∧
    (s.input ≠ [] →
      step net s KeyCode.enter =
        ({ s with response_text :=
            (make_request net (methods.getD s.selected_method "")
              (String.mk s.input) s.headers s.body).1 },
         (make_request net (methods.getD s.selected_method "")
           (String.mk s.input) s.headers s.body).2)) := by
  constructor
  · intro h
    simp [step, h]
  · intro h
    simp [step, h]

theorem c4_enter_witness :
    step netFail initState KeyCode.enter = (initState, []) ∧
    step netFail { initState with input := ['a'] } KeyCode.enter =
      ({ initState with
          input := ['a']
          response_text :=
            (make_request netFail (methods.getD 0 "") (String.mk ['a'])
              [] "").1 },
       (make_request netFail (methods.getD 0 "") (String.mk ['a']) [] "").2) :=
  ⟨(c4_enter netFail initState).1 rfl,
   (c4_enter netFail { initState with input := ['a'] }).2 (by decide)⟩

/-- A single step keeps the method selection index at most 4 (the last
index of the five-element method list). -/
lemma step_selected_le (net : Net) (s : SessionState) (k : KeyCode)
    (h : s.selected_method ≤ 4) :
    (step net s k).1.selected_method ≤ 4 := by
  cases k <;> simp only [step] <;> (repeat' split) <;> simp_all [methods] <;>
    omega

/-- The whole run keeps the method selection index at most 4. -/
lemma run_selected_le (net : Net) (s : SessionState) (ks : List KeyCode)
    (h : s.selected_method ≤ 4) :
    (run net s ks).1.selected_method ≤ 4 := by
  induction ks generalizing s with
  | nil => simpa [run] using h
  | cons k ks ih =>
    by_cases hk : k = KeyCode.esc
    · simpa [run, hk] using h
    · simp only [run, if_neg hk]
      exact ih _ (step_selected_le net s k h)

/-- C6: Down increments the selection when it is below the last index 4
and is a complete no-op at 4; Up decrements when above 0 and is a
complete no-op at 0; and on every run from the initial state the
selection stays within [0, 4]. -/
theorem c6_method_selection (net : Net) (s : SessionState) (ks : List KeyCode) :
    (s.selected_method < 4 →
      step net s KeyCode.down =
        ({ s with selected_method := s.selected_method + 1 }, [])) ∧
    (s.selected_method = 4 → step net s KeyCode.down = (s, [])) ∧
    (s.selected_method > 0 →
      step net s KeyCode.up =
        ({ s with selected_method := s.selected_method - 1 }, [])) ∧
    (s.selected_method = 0 → step net s KeyCode.up = (s, [])) ∧
    (run net initState ks).1.selected_method ≤ 4 := by
  refine ⟨?_, ?_, ?_, ?_, run_selected_le net initState ks (by decide)⟩
  · intro h
    simp [step, methods, h]
  · intro h
    simp [step, methods, h]
  · intro h
    simp [step, h]
  · intro h
    simp [step, h]

theorem c6_method_selection_witness :
    step netFail initState KeyCode.down =
      ({ initState with
          selected_method := initState.selected_method + 1 }, []) ∧
    step netFail initState KeyCode.up = (initState, []) ∧
    (run netFail initState [KeyCode.down]).1.selected_method ≤ 4 :=
  ⟨(c6_method_selection netFail initState []).1 (by decide),
   (c6_method_selection netFail initState []).2.2.2.1 rfl,
   (c6_method_selection netFail initState [KeyCode.down]).2.2.2.2⟩

/-- Character keys other than the three uppercase mode keys append to
the URL buffer, one after another. -/
lemma run_chars_append (net : Net) (s : SessionState) (cs : List Char)
    (h : ∀ c ∈ cs, c ≠ 'H' ∧ c ≠ 'B' ∧ c ≠ 'P') :
    (run net s (cs.map KeyCode.char)).1.input = s.input ++ cs := by
  induction cs generalizing s with
  | nil => simp [run]
  | cons c cs ih =>
    have hc := h c (List.mem_cons_self c cs)
    have hcs : ∀ c' ∈ cs, c' ≠ 'H' ∧ c' ≠ 'B' ∧ c' ≠ 'P' :=
      fun c' hc' => h c' (List.mem_cons_of_mem _ hc')
    have hstep : step net s (KeyCode.char c) =
        ({ s with input := s.input ++ [c] }, []) := by
      simp [step, hc.1, hc.2.1, hc.2.2]
    have hrec := ih { s with input := s.input ++ [c] } hcs
    simp [run, hstep, hrec]

/-- C1 is refuted by the mode keys: pressing the printable character H
does not append it to the URL buffer (it selects the Headers display
mode instead, because the Char('H') arm precedes the generic Char(c)
arm). -/
theorem c1_counterexample :
    ¬ (step netFail initState (KeyCode.char 'H')).1.input =
        initState.input ++ ['H'] := by
  decide

/-- C1 (amended): every printable-character keypress other than the
uppercase mode keys H, B, P appends that character to the URL buffer in
any state; hence for every sequence of printable characters avoiding H,
B, P the buffer equals the prior contents followed by those characters
in order. -/
theorem c1_printable_append (net : Net) (s : SessionState) :
    (∀ c : Char, c ≠ 'H' → c ≠ 'B' → c ≠ 'P' →
      step net s (KeyCode.char c) = ({ s with input := s.input ++ [c] }, [])) ∧
    (∀ cs : List Char, (∀ c ∈ cs, c ≠ 'H' ∧ c ≠ 'B' ∧ c ≠ 'P') →
      (run net s (cs.map KeyCode.char)).1.input = s.input ++ cs) := by
  constructor
  · intro c hH hB hP
    simp [step, hH, hB, hP]
  · intro cs h
    exact run_chars_append net s cs h

theorem c1_printable_append_witness :
    step netFail initState (KeyCode.char 'a') =
      ({ initState with input := initState.input ++ ['a'] }, []) ∧
    (run netFail initState
      (['a', 'b'].map KeyCode.char)).1.input = initState.input ++ ['a', 'b'] :=
  ⟨(c1_printable_append netFail initState).1 'a' (by decide) (by decide)
     (by decide),
   (c1_printable_append netFail initState).2 ['a', 'b'] (by decide)⟩

/-- No key event ever changes the header set, the param set or the body
text. -/
lemma step_fields (net : Net) (s : SessionState) (k : KeyCode) :
    (step net s k).1.headers = s.headers ∧
    (step net s k).1.params = s.params ∧
    (step net s k).1.body = s.body := by
  cases k <;> simp only [step] <;> (repeat' split) <;> simp

/-- Every request `make_request` ever dispatches is exactly the one it
assembles from its arguments. -/
lemma make_request_trace (net : Net) (method url : String)
    (headers : List (String × String)) (body : String) :
    ∀ req ∈ (make_request net method url headers body).2,
      req = built_request method url headers body := by
  intro req hreq
  by_cases h : recognizedMethod method
  · simp [make_request, h] at hreq
    exact hreq
  · simp [make_request, h] at hreq

/-- The payload of an assembled request, by case on the method. -/
lemma built_request_body_eq (method url : String)
    (hdrs : List (String × String)) (bd : String) :
    (method = "GET" → (built_request method url hdrs bd).body = none) ∧
    (method ≠ "GET" → (built_request method url hdrs bd).body = some bd) := by
  constructor <;> intro h <;> simp [built_request, h]

/-- From a state with an empty header set and empty body text, every
request a key event dispatches carries no headers and, when its method
is not GET, an empty body payload (no payload at all for GET). -/
lemma step_requests (net : Net) (s : SessionState) (k : KeyCode)
    (hh : s.headers = []) (hb : s.body = "") :
    ∀ req ∈ (step net s k).2,
      req.headers = [] ∧ (req.method = "GET" → req.body = none) ∧
        (req.method ≠ "GET" → req.body = some "") := by
  cases k <;> intro req hreq <;> simp only [step] at hreq
  case esc => simp at hreq
  case up => split at hreq <;> simp at hreq
  case down => split at hreq <;> simp at hreq
  case backspace => simp at hreq
  case other => simp at hreq
  case char c =>
    repeat' split at hreq
    all_goals simp at hreq
  case enter =>
    split at hreq
    · have hr := make_request_trace net (methods.getD s.selected_method "")
        (String.mk s.input) s.headers s.body req hreq
      subst hr
      refine ⟨hh, ?_, ?_⟩
      · intro hg
        exact (built_request_body_eq (methods.getD s.selected_method "")
          (String.mk s.input) s.headers s.body).1 hg
      · intro hg
        rw [(built_request_body_eq (methods.getD s.selected_method "")
          (String.mk s.input) s.headers s.body).2 hg, hb]
    · simp at hreq

/-- The empty-headers / empty-params / empty-body invariant is preserved
along any run and forces every dispatched request to carry empty request
data. -/
lemma run_c9_aux (net : Net) (s : SessionState) (ks : List KeyCode)
    (hh : s.headers = []) (hp : s.params = []) (hb : s.body = "") :
    (run net s ks).1.headers = [] ∧ (run net s ks).1.params = [] ∧
    (run net s ks).1.body = "" ∧
    ∀ req ∈ (run net s ks).2, req.headers = [] ∧
      (req.method = "GET" → req.body = none) ∧
      (req.method ≠ "GET" → req.body = some "") := by
  induction ks generalizing s with
  | nil => simp [run, hh, hp, hb]
  | cons k ks ih =>
    by_cases hk : k = KeyCode.esc
    · simp [run, hk, hh, hp, hb]
    · have hfields := step_fields net s k
      have hreqs := step_requests net s k hh hb
      have ihs := ih (step net s k).1 (hfields.1.trans hh)
        (hfields.2.1.trans hp) (hfields.2.2.trans hb)
      simp only [run, if_neg hk]
      refine ⟨ihs.1, ihs.2.1, ihs.2.2.1, ?_⟩
      intro req hreq
      rcases List.mem_append.mp hreq with h1 | h2
      · exact hreqs req h1
      · exact ihs.2.2.2 req h2

/-- C9: the header set, param set and body text start empty and no key
event ever mutates them during the session; consequently every request
the session dispatches carries an empty header mapping and, for non-GET
methods, an empty body payload (and no payload at all for GET). -/
theorem c9_request_data_immutable (net : Net) (ks : List KeyCode) :
    (run net initState ks).1.headers = [] ∧
    (run net initState ks).1.params = [] ∧
    (run net initState ks).1.body = "" ∧
    ∀ req ∈ (run net initState ks).2,
      req.headers = [] ∧ (req.method = "GET" → req.body = none) ∧
        (req.method ≠ "GET" → req.body = some "") :=
  run_c9_aux net initState ks rfl rfl rfl

theorem c9_request_data_immutable_witness :
    (run netFail initState [KeyCode.char 'x', KeyCode.enter]).1.headers = [] ∧
    (built_request "GET" "x" [] "").headers = [] ∧
    (built_request "GET" "x" [] "").body = none :=
  ⟨(c9_request_data_immutable netFail [KeyCode.char 'x', KeyCode.enter]).1,
   ((c9_request_data_immutable netFail
      [KeyCode.char 'x', KeyCode.enter]).2.2.2
      (built_request "GET" "x" [] "") (by decide)).1,
   ((c9_request_data_immutable netFail
      [KeyCode.char 'x', KeyCode.enter]).2.2.2
      (built_request "GET" "x" [] "") (by decide)).2.1 rfl⟩
